import Mathlib

/-!
# SCM-Starter: the ATM page (`src/pages/index.js`)

A shallow embedding of the `HomePage` component.  The component is a set of
closures over seven `useState` fields.  Every closure is embedded as a Lean
function of the render snapshot `c : State` it captured, and produces a
program `Prog`: a tree of synchronous effects (state setters, console output,
alerts), awaited remote calls, and calls of `async` functions whose promise is
dropped.  `runSync` executes a program up to its suspension points, `deliver`
resumes one suspended call with the answer of the outside world, and the
order of the answers is a parameter of every statement.
-/

namespace SCMStarter

/-! ## Data model -/

/-- The JavaScript values that reach the `account` field: `undefined`, a
string, or the array of addresses answered by the wallet provider. -/
inductive JSVal
  | undefined
  | str (s : String)
  | arr (xs : List String)
  deriving DecidableEq, Repr

/-- JavaScript truthiness: `undefined` and the empty string are falsy, every
array (the empty one included) is truthy. -/
def JSVal.truthy : JSVal → Bool
  | .undefined => false
  | .str s => !(s == "")
  | .arr _ => true

/-- The injected wallet provider (`window.ethereum`), an opaque reference. -/
abbrev Wallet := Nat

/-- An error value (thrown, or the reason of a rejected promise). -/
abbrev Err := String

/-- The object built by `new ethers.Contract(contractAddress, atmABI, signer)`;
the interface description is the fixed artifact and is left out. -/
structure Contract where
  address : String
  signer : Wallet
  deriving DecidableEq, Repr

/-- One record as the contract returns it: amount in base units. -/
structure RawRecord where
  amount : Nat
  timestamp : Nat
  deriving DecidableEq, Repr

/-- One record as stored in the `deposits` / `withdrawals` fields. -/
structure Record where
  amount : String
  timestamp : Nat
  deriving DecidableEq, Repr

/-- The seven `useState` fields of `HomePage` (lines 7-13). -/
structure State where
  ethWallet : Option Wallet
  account : JSVal
  atm : Option Contract
  balance : Option String
  deposits : List Record
  withdrawals : List Record
  loading : Bool
  deriving DecidableEq, Repr

/-- The initial values given to `useState` (lines 7-13). -/
def initialState : State :=
  { ethWallet := none, account := .undefined, atm := none, balance := none,
    deposits := [], withdrawals := [], loading := false }

/-- Line 15. -/
def contractAddress : String := "0x5FbDB2315678afecb367f032d93F642f64180aa3"

/-! ## The `ethers.utils` conversions -/

/-- The decimal digit of a number below ten. -/
def digitChar (d : Nat) : Char := Char.ofNat (48 + d % 10)

/-- The value of a decimal digit character. -/
def digitVal (ch : Char) : Option Nat :=
  if 48 ≤ ch.toNat ∧ ch.toNat ≤ 57 then some (ch.toNat - 48) else none

/-- The decimal digits of `v`, most significant first, padded to width `w`. -/
def padDigits : Nat → Nat → List Char
  | 0, _ => []
  | w + 1, v => padDigits w (v / 10) ++ [digitChar v]

/-- The decimal digits of `v` without padding; `fuel` bounds the length
(78 digits hold every 256-bit amount). -/
def natDigits : Nat → Nat → List Char
  | 0, _ => []
  | fuel + 1, v => if v < 10 then [digitChar v] else natDigits fuel (v / 10) ++ [digitChar v]

/-- The value of a string of decimal digits, `none` when a character is not a digit. -/
def digitsVal : List Char → Option Nat
  | [] => some 0
  | cs => cs.foldl (fun acc ch => match acc, digitVal ch with
      | some a, some d => some (a * 10 + d)
      | _, _ => none) (some 0)

/-- Drops the zeros at the end, keeping one digit at least. -/
def stripTrailingZeros (cs : List Char) : List Char :=
  match (cs.reverse.dropWhile (fun ch => ch == '0')).reverse with
  | [] => ['0']
  | ds => ds

/-- Modelled from the spec: `ethers.utils.formatEther` of the external
`ethers` library, which is not part of the repository sources.  The spec has
it convert the integer base-unit representation to a decimal display string in
whole-currency units, `0` being shown as "0.0" and one whole unit as "1.0":
the whole part, a point, and the eighteen fractional digits without their
trailing zeros. -/
def formatEther (wei : Nat) : String :=
  String.mk (natDigits 78 (wei / 10 ^ 18) ++ ['.'] ++
    stripTrailingZeros (padDigits 18 (wei % 10 ^ 18)))

/-- Modelled from the spec: `ethers.utils.parseEther` of the external `ethers`
library, which is not part of the repository sources.  The spec has it scale a
decimal amount in whole units to the integer base-unit representation; the
result is `none` where the library throws (not a decimal number, or more than
eighteen fractional digits). -/
def parseEther (s : String) : Option Nat :=
  match s.toList.splitOn '.' with
  | [whole] =>
    if whole = [] then none else (digitsVal whole).map (fun w => w * 10 ^ 18)
  | [whole, frac] =>
    if whole = [] ∧ frac = [] then none
    else if 18 < frac.length then none
    else
      match digitsVal whole, digitsVal frac with
      | some w, some f => some (w * 10 ^ 18 + f * 10 ^ (18 - frac.length))
      | _, _ => none
  | _ => none

/-! ## Programs -/

/-- The remote calls the page awaits. -/
inductive Call
  | request (w : Wallet) (method : String)
  | atmGetBalance (atm : Contract)
  | atmGetDeposits (atm : Contract)
  | atmGetWithdrawals (atm : Contract)
  | atmDeposit (atm : Contract) (amount : Nat)
  | atmWithdraw (atm : Contract) (amount : Nat)
  | txWait
  deriving DecidableEq, Repr

/-- What the outside world answers to an awaited call. -/
inductive Reply
  | accounts (v : JSVal)
  | bigNumber (n : Nat)
  | records (rs : List RawRecord)
  | tx
  | receipt
  | error (e : Err)
  deriving DecidableEq, Repr

/-- The answers a call can receive: its own result type, or a rejection. -/
def Call.accepts : Call → Reply → Bool
  | _, .error _ => true
  | .request _ _, .accounts _ => true
  | .atmGetBalance _, .bigNumber _ => true
  | .atmGetDeposits _, .records _ => true
  | .atmGetWithdrawals _, .records _ => true
  | .atmDeposit _ _, .tx => true
  | .atmWithdraw _ _, .tx => true
  | .txWait, .receipt => true
  | _, _ => false

/-- The observable synchronous effects, and the submission of a remote call. -/
inductive Event
  | setEthWallet (w : Wallet)
  | setAccount (a : JSVal)
  | setATM (c : Contract)
  | setBalance (b : String)
  | setDeposits (rs : List Record)
  | setWithdrawals (rs : List Record)
  | setLoading (b : Bool)
  | consoleLog (msg : String) (args : List JSVal)
  | consoleError (msg : String) (error : Err)
  | alert (msg : String)
  | confetti (particleCount spread : Nat)
  | call (c : Call)
  deriving DecidableEq, Repr

/-- The body of a JavaScript function, as a tree.  `await c k` submits the
remote call `c` and suspends until its answer `r` arrives, then goes on as
`k r`.  `spawn p k` calls the `async` function `p` without awaiting it: `p`
runs up to its first suspension, then the caller goes on as `k`; the promise
of `p` is dropped. -/
inductive Prog
  | done
  | throw (e : Err)
  | emit (ev : Event) (k : Prog)
  | await (c : Call) (k : Reply → Prog)
  | spawn (p : Prog) (k : Prog)

/-- The statement `await c` whose rejection is thrown at the `await`. -/
def awaitOk (c : Call) (k : Reply → Prog) : Prog :=
  .await c fun r =>
    match r with
    | .error e => .throw e
    | r => k r

/-- Sequencing `p; q`, also `await p(); q` for a local `async` function `p`. -/
def seq : Prog → Prog → Prog
  | .done, q => q
  | .throw e, _ => .throw e
  | .emit ev k, q => .emit ev (seq k q)
  | .await c k, q => .await c fun r => seq (k r) q
  | .spawn p k, q => .spawn p (seq k q)

/-- The statement `try { body } catch (error) { handler }`.  A throw of the body,
at any of its awaits too, runs the handler; an `async` function called in
the body without `await` is not covered, its rejection never reaches the handler. -/
def tryCatch : Prog → (Err → Prog) → Prog
  | .done, _ => .done
  | .throw e, h => h e
  | .emit ev k, h => .emit ev (tryCatch k h)
  | .await c k, h => .await c fun r => tryCatch (k r) h
  | .spawn p k, h => .spawn p (tryCatch k h)

/-! ## Execution -/

/-- A suspended `await`: the call submitted and the rest of the function. -/
structure Task where
  call : Call
  k : Reply → Prog

/-- The page while it runs: the state store, the suspended awaits in the
order of their submission, everything done so far, and the errors that
rejected a promise nobody awaits. -/
structure Config where
  state : State
  pending : List Task
  trace : List Event
  unhandled : List Err

/-- The page at rest in state `s`. -/
def Config.idle (s : State) : Config :=
  { state := s, pending := [], trace := [], unhandled := [] }

/-- The effect of one event on the state store. -/
def applyEvent (ev : Event) (s : State) : State :=
  match ev with
  | .setEthWallet w => { s with ethWallet := some w }
  | .setAccount a => { s with account := a }
  | .setATM c => { s with atm := some c }
  | .setBalance b => { s with balance := some b }
  | .setDeposits rs => { s with deposits := rs }
  | .setWithdrawals rs => { s with withdrawals := rs }
  | .setLoading b => { s with loading := b }
  | _ => s

/-- Runs a program up to its suspension points. -/
def runSync : Prog → Config → Config
  | .done, cfg => cfg
  | .throw e, cfg => { cfg with unhandled := cfg.unhandled ++ [e] }
  | .emit ev k, cfg =>
    runSync k { cfg with state := applyEvent ev cfg.state, trace := cfg.trace ++ [ev] }
  | .await c k, cfg =>
    { cfg with trace := cfg.trace ++ [.call c], pending := cfg.pending ++ [⟨c, k⟩] }
  | .spawn p k, cfg => runSync k (runSync p cfg)

/-- The answer `r` arrives for the suspended call number `i`; the function
that awaited it resumes and runs up to its next suspension.  An answer for no
call, or of the wrong type, changes nothing. -/
def deliver (i : Nat) (r : Reply) (cfg : Config) : Config :=
  match cfg.pending[i]? with
  | some t =>
    if t.call.accepts r then runSync (t.k r) { cfg with pending := cfg.pending.eraseIdx i }
    else cfg
  | none => cfg

/-- The answers of a whole schedule, in order. -/
def deliverAll : List (Nat × Reply) → Config → Config
  | [], cfg => cfg
  | (i, r) :: rest, cfg => deliverAll rest (deliver i r cfg)

/-- A handler of the render of the current state is invoked. -/
def invoke (op : State → Prog) (cfg : Config) : Config :=
  runSync (op cfg.state) cfg

/-! ## The operations of `HomePage` -/

/-- Lines 29-36: `handleAccount(account)`, followed by `k`. -/
def handleAccount (account : JSVal) (k : Prog) : Prog :=
  if account.truthy then
    .emit (.consoleLog "Account connected: " [account]) <|
    .emit (.setAccount account) k
  else
    .emit (.consoleLog "No account found" []) k

/-- Lines 18-27: `getWallet`, with `window.ethereum` as found by the page. -/
def getWallet (windowEthereum : Option Wallet) (c : State) : Prog :=
  let rest : Prog :=
    match c.ethWallet with
    | some w =>
      awaitOk (.request w "eth_accounts") fun r =>
        match r with
        | .accounts account => handleAccount account .done
        | _ => .throw "TypeError"
    | none => .done
  match windowEthereum with
  | some w => .emit (.setEthWallet w) rest
  | none => rest

/-- Lines 51-57: `getATMContract()`, followed by `k`.  The constructor
`Web3Provider` throws when it is given no provider. -/
def getATMContract (c : State) (k : Prog) : Prog :=
  match c.ethWallet with
  | some w => .emit (.setATM { address := contractAddress, signer := w }) k
  | none => .throw "missing provider"

/-- Lines 38-49: `connectAccount`. -/
def connectAccount (c : State) : Prog :=
  match c.ethWallet with
  | none => .emit (.alert "MetaMask wallet is required to connect") .done
  | some w =>
    awaitOk (.request w "eth_requestAccounts") fun r =>
      match r with
      | .accounts accounts => handleAccount accounts (getATMContract c .done)
      | _ => .throw "TypeError"

/-- Lines 59-65: `getBalance`. -/
def getBalance (c : State) : Prog :=
  match c.atm with
  | some atm =>
    awaitOk (.atmGetBalance atm) fun r =>
      match r with
      | .bigNumber balanceInWei => .emit (.setBalance (formatEther balanceInWei)) .done
      | _ => .throw "TypeError"
  | none => .done

/-- Lines 79-82 and 90-93: the map applied to the records returned. -/
def formatRecord (record : RawRecord) : Record :=
  { amount := formatEther record.amount, timestamp := record.timestamp }

/-- Lines 76-85: `getDeposits`. -/
def getDeposits (c : State) : Prog :=
  match c.atm with
  | some atm =>
    awaitOk (.atmGetDeposits atm) fun r =>
      match r with
      | .records depositRecords => .emit (.setDeposits (depositRecords.map formatRecord)) .done
      | _ => .throw "TypeError"
  | none => .done

/-- Lines 87-96: `getWithdrawals`. -/
def getWithdrawals (c : State) : Prog :=
  match c.atm with
  | some atm =>
    awaitOk (.atmGetWithdrawals atm) fun r =>
      match r with
      | .records withdrawalRecords =>
        .emit (.setWithdrawals (withdrawalRecords.map formatRecord)) .done
      | _ => .throw "TypeError"
  | none => .done

/-- Lines 67-74: `fetchRecords`. -/
def fetchRecords (c : State) : Prog :=
  match c.atm with
  | some _ =>
    .emit (.setLoading true) <|
    seq (getDeposits c) <|
    seq (getWithdrawals c) <|
    .emit (.setLoading false) .done
  | none => .done

/-- Lines 134-140: `triggerConfetti()`, followed by `k`. -/
def triggerConfetti (k : Prog) : Prog :=
  .emit (.confetti 100 70) k

/-- Lines 98-114: `deposit`. -/
def deposit (c : State) : Prog :=
  match c.atm with
  | some atm =>
    if !c.loading then
      .emit (.setLoading true) <|
      seq
        (tryCatch
          (match parseEther "1" with
            | some depositAmount =>
              awaitOk (.atmDeposit atm depositAmount) fun _tx =>
              awaitOk .txWait fun _ =>
              .spawn (getBalance c) <|
              .spawn (fetchRecords c) <|
              triggerConfetti .done
            | none => .throw "invalid decimal value")
          (fun error =>
            .emit (.consoleError "Error during deposit:" error) <|
            .emit (.alert "Transaction failed") .done))
        (.emit (.setLoading false) .done)
    else .done
  | none => .done

/-- Lines 116-132: `withdraw`. -/
def withdraw (c : State) : Prog :=
  match c.atm with
  | some atm =>
    if !c.loading then
      .emit (.setLoading true) <|
      seq
        (tryCatch
          (match parseEther "1" with
            | some withdrawAmount =>
              awaitOk (.atmWithdraw atm withdrawAmount) fun _tx =>
              awaitOk .txWait fun _ =>
              .spawn (getBalance c) <|
              .spawn (fetchRecords c) <|
              triggerConfetti .done
            | none => .throw "invalid decimal value")
          (fun error =>
            .emit (.consoleError "Error during withdrawal:" error) <|
            .emit (.alert "Transaction failed") .done))
        (.emit (.setLoading false) .done)
    else .done
  | none => .done

/-! ## Rendering -/

/-- The handlers bound to the buttons. -/
inductive Handler
  | connectAccount
  | deposit
  | withdraw
  deriving DecidableEq, Repr

/-- A `<button onClick=... disabled=...>text</button>`. -/
structure Button where
  onClick : Handler
  disabled : Bool
  text : String
  deriving DecidableEq, Repr

/-- One history block (lines 167-178 and 184-195): the `<ul>` with one `<li>`
per record of the list, in the order of the list, or the `<p>` shown for an
empty list.  The `<li>` of a record shows its `amount` and the local date and
time of its `timestamp` (`new Date(timestamp * 1000).toLocaleString()`); that
text depends on the locale and time zone of the browser and is not computed
here, the item keeps the record it is made from. -/
inductive HistoryList
  | items (lis : List Record)
  | emptyText (text : String)
  deriving DecidableEq, Repr

/-- What `initUser` returns: the paragraph of line 144, the button of line
149, or the block of lines 158-197. -/
inductive Fragment
  | installPrompt (text : String)
  | connectPrompt (button : Button)
  | accountView (account : JSVal) (balance : Option String)
      (depositButton withdrawButton : Button)
      (depositHistory withdrawalHistory : HistoryList)
  deriving DecidableEq, Repr

/-- Lines 167-178, 184-195: a list is shown when its length is positive. -/
def renderHistory (records : List Record) (emptyText : String) : HistoryList :=
  if records.length > 0 then .items records
  else .emptyText emptyText

/-- Lines 142-199: `initUser`, the fragment it returns and the call of
`getBalance` it makes on the way (line 154). -/
def initUser (c : State) : Prog × Fragment :=
  match c.ethWallet with
  | none => (.done, .installPrompt "Please install Metamask in order to use this ATM.")
  | some _ =>
    if !c.account.truthy then
      (.done, .connectPrompt
        { onClick := .connectAccount, disabled := false,
          text := "Please connect your Metamask wallet" })
    else
      (if c.balance = none then .spawn (getBalance c) .done else .done,
       .accountView c.account c.balance
        { onClick := .deposit, disabled := c.loading, text := "Deposit 1 ETH" }
        { onClick := .withdraw, disabled := c.loading, text := "Withdraw 1 ETH" }
        (renderHistory c.deposits "No deposits yet.")
        (renderHistory c.withdrawals "No withdrawals yet."))

/-- Lines 205-207: the effect run when `atm` changes. -/
def onAtmChange (c : State) : Prog :=
  match c.atm with
  | some _ => .spawn (fetchRecords c) .done
  | none => .done

/-! ## The invariant `account` set implies `atm` set -/

/-- Whether `account` may be set without `atm` after event `ev`, given whether
it might before: `setAccount` opens the gap, `setATM` closes it. -/
def gapAfter (gap : Bool) : Event → Bool
  | .setAccount _ => true
  | .setATM _ => false
  | _ => gap

/-- The programs that never suspend or end between a `setAccount` and the
next `setATM`.  `Rebinds gap p`: started with the gap open (`gap` true) or
closed, `p` closes it before every suspension and before its end. -/
inductive Rebinds : Bool → Prog → Prop
  | done : Rebinds false .done
  | throw (e : Err) : Rebinds false (.throw e)
  | emit {gap : Bool} {ev : Event} {k : Prog} :
      Rebinds (gapAfter gap ev) k → Rebinds gap (.emit ev k)
  | await {c : Call} {k : Reply → Prog} :
      (∀ r, Rebinds false (k r)) → Rebinds false (.await c k)
  | spawn {p k : Prog} : Rebinds false p → Rebinds false k → Rebinds false (.spawn p k)

/-- A set `account` comes with a bound `atm`. -/
def AccountBound (s : State) : Prop :=
  s.account.truthy = true → s.atm.isSome = true

/-- Every suspended function goes on as a program that rebinds. -/
def PendingRebind (cfg : Config) : Prop :=
  ∀ t ∈ cfg.pending, ∀ r, Rebinds false (t.k r)

/-- The configurations the page can be in.  It starts at rest in the initial
state.  The mount effect (lines 201-203) runs `getWallet` of the first render,
whose snapshot is the initial state.  A click runs `connectAccount`, `deposit`
or `withdraw`, a change of `atm` runs the effect of lines 205-207, a render
runs `initUser`, each with the snapshot `c` of some render.  The outside
world answers suspended calls in any order. -/
inductive Reachable : Config → Prop
  | start : Reachable (.idle initialState)
  | mount (we : Option Wallet) {cfg : Config} :
      Reachable cfg → Reachable (runSync (getWallet we initialState) cfg)
  | connectAccount (c : State) {cfg : Config} :
      Reachable cfg → Reachable (runSync (connectAccount c) cfg)
  | deposit (c : State) {cfg : Config} :
      Reachable cfg → Reachable (runSync (deposit c) cfg)
  | withdraw (c : State) {cfg : Config} :
      Reachable cfg → Reachable (runSync (withdraw c) cfg)
  | onAtmChange (c : State) {cfg : Config} :
      Reachable cfg → Reachable (runSync (onAtmChange c) cfg)
  | render (c : State) {cfg : Config} :
      Reachable cfg → Reachable (runSync (initUser c).1 cfg)
  | answer (i : Nat) (r : Reply) {cfg : Config} :
      Reachable cfg → Reachable (deliver i r cfg)

/-! ## Example inputs -/

/-- A contract handle bound to the fixed address, signing through wallet `7`. -/
def exampleContract : Contract := { address := contractAddress, signer := 7 }

/-- A connected page at rest: provider, account and contract set, balance "0.0". -/
def exampleState : State :=
  { ethWallet := some 7, account := .arr ["0xabc"], atm := some exampleContract,
    balance := some "0.0", deposits := [], withdrawals := [], loading := false }

/-- The page with a provider found and nothing else set. -/
def walletOnlyState : State := { initialState with ethWallet := some 7 }

/-- The page after the mount effect found provider `7`, the connect button
was clicked and the provider answered one address. -/
def connectedConfig : Config :=
  deliver 0 (.accounts (.arr ["0xabc"]))
    (runSync (connectAccount walletOnlyState)
      (runSync (getWallet (some 7) initialState) (.idle initialState)))

/-- The page after the mount effect found provider `7`, the connect button
was clicked and the provider answered the empty list of addresses. -/
def emptyAnswerConfig : Config :=
  deliver 0 (.accounts (.arr []))
    (runSync (connectAccount walletOnlyState)
      (runSync (getWallet (some 7) initialState) (.idle initialState)))

/-- The page of `emptyAnswerConfig` after the effect of lines 205-207 has run
for the contract just bound, the contract answering one deposit record of
one whole unit and no withdrawal record. -/
def emptyAccountConfig : Config :=
  deliver 0 (.records [])
    (deliver 0 (.records [{ amount := 10 ^ 18, timestamp := 1700000000 }])
      (runSync (onAtmChange emptyAnswerConfig.state) emptyAnswerConfig))

/-! ## Helper lemmas -/

theorem parseEther_one : parseEther "1" = some (10 ^ 18) := by decide

theorem formatEther_one : formatEther (10 ^ 18) = "1.0" := by decide

theorem write_noop_of_loading (cfg : Config) (h : cfg.state.loading = true) :
    invoke deposit cfg = cfg ∧ invoke withdraw cfg = cfg := by
  cases hatm : cfg.state.atm <;> simp [invoke, deposit, withdraw, h, hatm, runSync]

theorem write_noop_of_unbound (cfg : Config) (h : cfg.state.atm = none) :
    invoke deposit cfg = cfg ∧ invoke withdraw cfg = cfg := by
  simp [invoke, deposit, withdraw, h, runSync]

/-! ## The write operations -/

/-- C1: in every configuration whose state has `loading` true, and in every
one whose state has `atm` unset, invoking `deposit` or `withdraw` leaves the
configuration as it is: no call is submitted (no transaction, no refresh), no
event happens (no alert), no state field changes. -/
theorem write_noop_when_loading_or_unbound (cfg : Config)
    (h : cfg.state.loading = true ∨ cfg.state.atm = none) :
    invoke deposit cfg = cfg ∧ invoke withdraw cfg = cfg := by
  rcases h with h | h
  · exact write_noop_of_loading cfg h
  · exact write_noop_of_unbound cfg h

theorem write_noop_when_loading_or_unbound_witness :
    ((Config.idle { exampleState with loading := true }).state.loading = true ∨
      (Config.idle { exampleState with loading := true }).state.atm = none) ∧
    invoke deposit (Config.idle { exampleState with loading := true })
      = Config.idle { exampleState with loading := true } ∧
    invoke withdraw (Config.idle { exampleState with loading := true })
      = Config.idle { exampleState with loading := true } :=
  ⟨Or.inl rfl, write_noop_when_loading_or_unbound _ (Or.inl rfl)⟩

/-- C4: from every state with `atm` bound and `loading` false, whatever the
cached balance, `withdraw` and `deposit` set `loading` and submit the write
call of one whole unit with nothing in between; and when the submission is
rejected, or the confirmation wait is, the operation logs the error, shows the
alert "Transaction failed", submits no balance or record call, leaves no call
suspended, ends in the state it started from (`loading` false) and rejects no
promise. -/
theorem write_failure_alerts_and_clears_loading (s : State) (atm : Contract) (e : Err)
    (hatm : s.atm = some atm) (hload : s.loading = false) :
    ((invoke withdraw (.idle s)).trace
        = [.setLoading true, .call (.atmWithdraw atm (10 ^ 18))] ∧
      deliver 0 (.error e) (invoke withdraw (.idle s))
        = { state := s, pending := [],
            trace := [.setLoading true, .call (.atmWithdraw atm (10 ^ 18)),
              .consoleError "Error during withdrawal:" e, .alert "Transaction failed",
              .setLoading false],
            unhandled := [] } ∧
      deliverAll [(0, .tx), (0, .error e)] (invoke withdraw (.idle s))
        = { state := s, pending := [],
            trace := [.setLoading true, .call (.atmWithdraw atm (10 ^ 18)), .call .txWait,
              .consoleError "Error during withdrawal:" e, .alert "Transaction failed",
              .setLoading false],
            unhandled := [] }) ∧
    ((invoke deposit (.idle s)).trace
        = [.setLoading true, .call (.atmDeposit atm (10 ^ 18))] ∧
      deliver 0 (.error e) (invoke deposit (.idle s))
        = { state := s, pending := [],
            trace := [.setLoading true, .call (.atmDeposit atm (10 ^ 18)),
              .consoleError "Error during deposit:" e, .alert "Transaction failed",
              .setLoading false],
            unhandled := [] } ∧
      deliverAll [(0, .tx), (0, .error e)] (invoke deposit (.idle s))
        = { state := s, pending := [],
            trace := [.setLoading true, .call (.atmDeposit atm (10 ^ 18)), .call .txWait,
              .consoleError "Error during deposit:" e, .alert "Transaction failed",
              .setLoading false],
            unhandled := [] }) := by
  obtain ⟨w, a, c, b, d, wd, l⟩ := s
  simp only at hatm hload
  subst hatm hload
  refine ⟨⟨?_, ?_, ?_⟩, ?_, ?_, ?_⟩ <;>
  simp [invoke, withdraw, deposit, parseEther_one, Config.idle, runSync, seq, tryCatch,
    awaitOk, applyEvent, deliver, deliverAll, Call.accepts]

theorem write_failure_alerts_and_clears_loading_witness :
    ({ exampleState with balance := none } : State).atm = some exampleContract ∧
    ({ exampleState with balance := none } : State).loading = false ∧
    (deliver 0 (.error "insufficient balance")
        (invoke withdraw (.idle { exampleState with balance := none })))
      = { state := { exampleState with balance := none }, pending := [],
          trace := [.setLoading true, .call (.atmWithdraw exampleContract (10 ^ 18)),
            .consoleError "Error during withdrawal:" "insufficient balance",
            .alert "Transaction failed", .setLoading false],
          unhandled := [] } :=
  ⟨rfl, rfl, (write_failure_alerts_and_clears_loading { exampleState with balance := none }
    exampleContract "insufficient balance" rfl rfl).1.2.1⟩

/-- C2 (the code departs from the claim): `deposit` is invoked on the
connected page at rest, the transaction is submitted and confirmed.  When the
function has run to its end, `loading` is false again (line 112) while the
balance call and the deposit-history call of the refresh are still suspended
and none of the three views has been updated: `getBalance()` and
`fetchRecords()` are called without `await`, so the `setLoading(false)` of
line 112 comes before the refresh and undoes the `setLoading(true)` of
`fetchRecords`. -/
theorem deposit_clears_loading_before_refresh_completes :
    (deliverAll [(0, .tx), (0, .receipt)]
        (invoke deposit (.idle exampleState))).state = exampleState ∧
    (deliverAll [(0, .tx), (0, .receipt)]
        (invoke deposit (.idle exampleState))).state.loading = false ∧
    (deliverAll [(0, .tx), (0, .receipt)]
        (invoke deposit (.idle exampleState))).pending.map (fun t => t.call)
      = [.atmGetBalance exampleContract, .atmGetDeposits exampleContract] ∧
    (deliverAll [(0, .tx), (0, .receipt)]
        (invoke deposit (.idle exampleState))).trace
      = [.setLoading true, .call (.atmDeposit exampleContract (10 ^ 18)), .call .txWait,
          .call (.atmGetBalance exampleContract), .setLoading true,
          .call (.atmGetDeposits exampleContract), .confetti 100 70, .setLoading false] := by
  decide

/-- C3 (the code departs from the claim): the whole run of a successful
`withdraw` on the connected page at rest, the contract answering a balance of
zero and empty histories.  Each of the three read calls is submitted once and
after `tx.wait()`, but the `setLoading(false)` of line 130 precedes
`setBalance`, `setDeposits` and `setWithdrawals`: `loading` has returned to
false before any view is updated. -/
theorem withdraw_trace_loading_false_before_views :
    (deliverAll [(0, .tx), (0, .receipt), (0, .bigNumber 0), (0, .records []),
        (0, .records [])] (invoke withdraw (.idle exampleState))).trace
      = [.setLoading true, .call (.atmWithdraw exampleContract (10 ^ 18)), .call .txWait,
          .call (.atmGetBalance exampleContract), .setLoading true,
          .call (.atmGetDeposits exampleContract), .confetti 100 70, .setLoading false,
          .setBalance "0.0", .setDeposits [], .call (.atmGetWithdrawals exampleContract),
          .setWithdrawals [], .setLoading false] ∧
    (deliverAll [(0, .tx), (0, .receipt), (0, .bigNumber 0), (0, .records []),
        (0, .records [])] (invoke withdraw (.idle exampleState))).pending.length = 0 := by
  decide

/-! ## Rendering -/

/-- C5 (the code departs from the claim): the provider is present, the
connect button is clicked and the provider answers that no account is
authorized, the empty list.  `handleAccount` tests `if (account)`, which an
empty array passes: it logs "Account connected: " and stores the empty list,
its branch "No account found" is not taken.  `initUser` tests `!account` the
same way, so the page at rest renders the account view, with an empty account,
both buttons enabled and the history lists, and not the connect prompt. -/
theorem empty_account_list_renders_account_view :
    Reachable emptyAccountConfig ∧
    emptyAccountConfig.state.ethWallet = some 7 ∧
    emptyAccountConfig.state.account = .arr [] ∧
    emptyAccountConfig.pending.length = 0 ∧
    Event.consoleLog "Account connected: " [.arr []] ∈ emptyAccountConfig.trace ∧
    Event.consoleLog "No account found" [] ∉ emptyAccountConfig.trace ∧
    (initUser emptyAccountConfig.state).2 = .accountView (.arr []) none
        { onClick := .deposit, disabled := false, text := "Deposit 1 ETH" }
        { onClick := .withdraw, disabled := false, text := "Withdraw 1 ETH" }
        (.items [{ amount := "1.0", timestamp := 1700000000 }])
        (.emptyText "No withdrawals yet.") ∧
    (initUser emptyAccountConfig.state).2 ≠ .connectPrompt
        { onClick := .connectAccount, disabled := false,
          text := "Please connect your Metamask wallet" } :=
  ⟨.answer 0 _ (.answer 0 _ (.onAtmChange _
      (.answer 0 _ (.connectAccount walletOnlyState (.mount (some 7) .start))))),
    by decide, by decide, by decide, by decide, by decide, by decide, by decide⟩

/-! ## The read operations -/

/-- C8: with `atm` bound, whatever the views held before and whatever
sequence of records the contract returns, `getDeposits` leaves the state
unchanged but for `deposits`, which becomes the image of the returned
sequence under `record -> (formatEther record.amount, record.timestamp)`:
same length, same order, same timestamps, nothing kept of the old view.
`getWithdrawals` does the same to `withdrawals`.  Neither touches the other
view or the balance. -/
theorem getRecords_replaces_view (s : State) (atm : Contract) (rs : List RawRecord)
    (hatm : s.atm = some atm) :
    ((deliver 0 (.records rs) (invoke getDeposits (.idle s))).state
        = { s with deposits := rs.map fun record =>
              { amount := formatEther record.amount, timestamp := record.timestamp } } ∧
      (deliver 0 (.records rs) (invoke getDeposits (.idle s))).state.deposits.length
        = rs.length ∧
      (deliver 0 (.records rs) (invoke getDeposits (.idle s))).state.deposits.map
          (fun record => record.timestamp) = rs.map (fun record => record.timestamp)) ∧
    ((deliver 0 (.records rs) (invoke getWithdrawals (.idle s))).state
        = { s with withdrawals := rs.map fun record =>
              { amount := formatEther record.amount, timestamp := record.timestamp } } ∧
      (deliver 0 (.records rs) (invoke getWithdrawals (.idle s))).state.withdrawals.length
        = rs.length ∧
      (deliver 0 (.records rs) (invoke getWithdrawals (.idle s))).state.withdrawals.map
          (fun record => record.timestamp) = rs.map (fun record => record.timestamp)) := by
  have hd : (deliver 0 (.records rs) (invoke getDeposits (.idle s))).state
      = { s with deposits := rs.map formatRecord } := by
    simp [invoke, getDeposits, hatm, Config.idle, runSync, awaitOk, deliver, Call.accepts,
      applyEvent]
  have hw : (deliver 0 (.records rs) (invoke getWithdrawals (.idle s))).state
      = { s with withdrawals := rs.map formatRecord } := by
    simp [invoke, getWithdrawals, hatm, Config.idle, runSync, awaitOk, deliver, Call.accepts,
      applyEvent]
  rw [hd, hw]
  refine ⟨⟨rfl, ?_, ?_⟩, rfl, ?_, ?_⟩ <;> simp [formatRecord, Function.comp_def]

theorem getRecords_replaces_view_witness :
    ({ exampleState with deposits := [{ amount := "9.0", timestamp := 1 }] } : State).atm
      = some exampleContract ∧
    (deliver 0 (.records [{ amount := 10 ^ 18, timestamp := 1700000000 }])
        (invoke getDeposits
          (.idle { exampleState with deposits := [{ amount := "9.0", timestamp := 1 }] }))).state
      = { exampleState with deposits := [{ amount := "1.0", timestamp := 1700000000 }] } :=
  ⟨rfl, by
    rw [(getRecords_replaces_view _ exampleContract
      [{ amount := 10 ^ 18, timestamp := 1700000000 }] rfl).1.1]
    simp only [List.map, formatEther_one]⟩

/-- C9: `parseEther "1"` is the integer `10 ^ 18`, and `formatEther` of it is
"1.0", the canonical decimal string of one whole unit, which `parseEther`
reads as the same amount as "1". -/
theorem one_unit_roundtrip :
    parseEther "1" = some (10 ^ 18) ∧
    (parseEther "1").map formatEther = some "1.0" ∧
    parseEther "1.0" = parseEther "1" := by
  decide

/-- C10: `fetchRecords` is invoked with `atm` bound, as the effect of lines
205-207 does, whatever `loading` was before (false when no write is in
flight), and `atm.getDeposits` is rejected (or it
answers and `atm.getWithdrawals` is rejected).  Then the promise of
`fetchRecords` is rejected with that error, nothing stays suspended, and
`loading` is left true: the trace holds `setLoading true` and no later
`setLoading false`.  In the resulting configuration `deposit` and `withdraw`
change nothing, and the account view, when it is the fragment rendered, has
both buttons disabled. -/
theorem fetchRecords_failure_leaves_loading (s : State) (atm : Contract) (e : Err)
    (rs : List RawRecord) (hatm : s.atm = some atm) :
    runSync (onAtmChange s) (.idle s) = invoke fetchRecords (.idle s) ∧
    (deliver 0 (.error e) (invoke fetchRecords (.idle s))
        = { state := { s with loading := true }, pending := [],
            trace := [.setLoading true, .call (.atmGetDeposits atm)],
            unhandled := [e] } ∧
      deliverAll [(0, .records rs), (0, .error e)] (invoke fetchRecords (.idle s))
        = { state := { s with loading := true, deposits := rs.map formatRecord },
            pending := [],
            trace := [.setLoading true, .call (.atmGetDeposits atm),
              .setDeposits (rs.map formatRecord), .call (.atmGetWithdrawals atm)],
            unhandled := [e] }) ∧
    (∀ cfg : Config,
      cfg = deliver 0 (.error e) (invoke fetchRecords (.idle s)) ∨
        cfg = deliverAll [(0, .records rs), (0, .error e)] (invoke fetchRecords (.idle s)) →
      invoke deposit cfg = cfg ∧ invoke withdraw cfg = cfg ∧
      ∀ a b depositButton withdrawButton dh wh,
        (initUser cfg.state).2 = .accountView a b depositButton withdrawButton dh wh →
        depositButton.disabled = true ∧ withdrawButton.disabled = true) := by
  have h1 : deliver 0 (.error e) (invoke fetchRecords (.idle s))
      = { state := { s with loading := true }, pending := [],
          trace := [.setLoading true, .call (.atmGetDeposits atm)],
          unhandled := [e] } := by
    simp [invoke, fetchRecords, getDeposits, getWithdrawals, hatm, Config.idle, runSync, seq,
      awaitOk, applyEvent, deliver, Call.accepts]
  have h2 : deliverAll [(0, .records rs), (0, .error e)] (invoke fetchRecords (.idle s))
      = { state := { s with loading := true, deposits := rs.map formatRecord },
          pending := [],
          trace := [.setLoading true, .call (.atmGetDeposits atm),
            .setDeposits (rs.map formatRecord), .call (.atmGetWithdrawals atm)],
          unhandled := [e] } := by
    simp [invoke, fetchRecords, getDeposits, getWithdrawals, hatm, Config.idle, runSync, seq,
      awaitOk, applyEvent, deliver, deliverAll, Call.accepts]
  have hrender : ∀ st : State, st.loading = true →
      ∀ a b depositButton withdrawButton dh wh,
        (initUser st).2 = .accountView a b depositButton withdrawButton dh wh →
        depositButton.disabled = true ∧ withdrawButton.disabled = true := by
    intro st hst a b db wb dh wh hfrag
    unfold initUser at hfrag
    cases hw : st.ethWallet with
    | none => simp [hw] at hfrag
    | some w =>
      cases hacc : st.account.truthy with
      | false => simp [hw, hacc] at hfrag
      | true =>
        simp [hw, hacc] at hfrag
        obtain ⟨-, -, hdb, hwb, -, -⟩ := hfrag
        subst hdb hwb
        exact ⟨hst, hst⟩
  refine ⟨?_, ⟨h1, h2⟩, ?_⟩
  · simp [onAtmChange, invoke, hatm, Config.idle, runSync]
  · intro cfg hcfg
    have hl : cfg.state.loading = true := by
      rcases hcfg with hcfg | hcfg
      · rw [hcfg, h1]
      · rw [hcfg, h2]
    exact ⟨(write_noop_of_loading cfg hl).1, (write_noop_of_loading cfg hl).2,
      hrender cfg.state hl⟩

theorem fetchRecords_failure_leaves_loading_witness :
    exampleState.atm = some exampleContract ∧ exampleState.loading = false ∧
    (deliver 0 (.error "network error") (invoke fetchRecords (.idle exampleState))).state.loading
      = true ∧
    (deliver 0 (.error "network error") (invoke fetchRecords (.idle exampleState))).unhandled
      = ["network error"] ∧
    invoke deposit (deliver 0 (.error "network error") (invoke fetchRecords (.idle exampleState)))
      = deliver 0 (.error "network error") (invoke fetchRecords (.idle exampleState)) ∧
    (initUser (deliver 0 (.error "network error")
        (invoke fetchRecords (.idle exampleState))).state).2
      = .accountView (.arr ["0xabc"]) (some "0.0")
        { onClick := .deposit, disabled := true, text := "Deposit 1 ETH" }
        { onClick := .withdraw, disabled := true, text := "Withdraw 1 ETH" }
        (.emptyText "No deposits yet.") (.emptyText "No withdrawals yet.") :=
  ⟨rfl, rfl, by decide, by decide,
    ((fetchRecords_failure_leaves_loading exampleState exampleContract "network error" []
      rfl).2.2 _ (Or.inl rfl)).1, by decide⟩

/-! ## Wallet and account -/

/-- C7 (the code departs from the claim): the authorization request succeeds
and the provider answers the list of two addresses "0xabc", "0xdef".
`connectAccount` hands the list to `handleAccount`, which stores it as it is
(lines 44-45, 32): `account` becomes the list of both addresses, and is not
the first address "0xabc". -/
theorem connectAccount_account_is_not_first_address :
    (deliver 0 (.accounts (.arr ["0xabc", "0xdef"]))
        (invoke connectAccount (.idle walletOnlyState))).state.account
      = .arr ["0xabc", "0xdef"] ∧
    (deliver 0 (.accounts (.arr ["0xabc", "0xdef"]))
        (invoke connectAccount (.idle walletOnlyState))).state.account
      ≠ .str "0xabc" := by
  decide

/-! ## Rebinding the contract -/

theorem accountBound_applyEvent (gap : Bool) (ev : Event) (s : State)
    (h : gap = false → AccountBound s) (hg : gapAfter gap ev = false) :
    AccountBound (applyEvent ev s) := by
  cases ev <;> simp_all [gapAfter, applyEvent, AccountBound]

theorem runSync_rebinds {gap : Bool} {p : Prog} (hp : Rebinds gap p) :
    ∀ cfg : Config, PendingRebind cfg → (gap = false → AccountBound cfg.state) →
      PendingRebind (runSync p cfg) ∧ AccountBound (runSync p cfg).state := by
  induction hp with
  | done => intro cfg hpen hs; exact ⟨hpen, hs rfl⟩
  | throw e => intro cfg hpen hs; exact ⟨hpen, hs rfl⟩
  | @emit gap ev k _ ih =>
    intro cfg hpen hs
    exact ih _ hpen (fun hg => accountBound_applyEvent gap ev cfg.state hs hg)
  | @await c k hk _ =>
    intro cfg hpen hs
    refine ⟨?_, hs rfl⟩
    intro t ht r
    simp only [runSync, List.mem_append, List.mem_singleton] at ht
    rcases ht with ht | ht
    · exact hpen t ht r
    · subst ht; exact hk r
  | @spawn p k _ _ ihp ihk =>
    intro cfg hpen hs
    obtain ⟨h1, h2⟩ := ihp cfg hpen hs
    exact ihk _ h1 (fun _ => h2)

theorem deliver_rebinds (i : Nat) (r : Reply) (cfg : Config)
    (hpen : PendingRebind cfg) (hs : AccountBound cfg.state) :
    PendingRebind (deliver i r cfg) ∧ AccountBound (deliver i r cfg).state := by
  unfold deliver
  cases hget : cfg.pending[i]? with
  | none => exact ⟨hpen, hs⟩
  | some t =>
    by_cases hacc : t.call.accepts r = true
    · simp only [hacc, if_true]
      have hmem : t ∈ cfg.pending := List.getElem?_mem hget
      refine runSync_rebinds (hpen t hmem r) _ ?_ (fun _ => hs)
      intro t2 ht2 r2
      exact hpen t2 (List.mem_of_mem_eraseIdx ht2) r2
    · simp only [hacc]
      exact ⟨hpen, hs⟩

theorem rebinds_seq {gap : Bool} {p q : Prog} (hp : Rebinds gap p) (hq : Rebinds false q) :
    Rebinds gap (seq p q) := by
  induction hp with
  | done => exact hq
  | throw e => exact .throw e
  | emit _ ih => exact .emit ih
  | await _ ih => exact .await ih
  | spawn hp _ _ ihk => exact .spawn hp ihk

theorem rebinds_tryCatch {gap : Bool} {p : Prog} {h : Err → Prog} (hp : Rebinds gap p)
    (hh : ∀ e, Rebinds false (h e)) : Rebinds gap (tryCatch p h) := by
  induction hp with
  | done => exact .done
  | throw e => exact hh e
  | emit _ ih => exact .emit ih
  | await _ ih => exact .await ih
  | spawn hp _ _ ihk => exact .spawn hp ihk

theorem rebinds_awaitOk {c : Call} {k : Reply → Prog}
    (hk : ∀ r, Rebinds false (k r)) : Rebinds false (awaitOk c k) := by
  refine .await ?_
  intro r
  cases r <;> first | exact .throw _ | exact hk _

theorem rebinds_getWallet_unset (we : Option Wallet) (c : State) (h : c.ethWallet = none) :
    Rebinds false (getWallet we c) := by
  cases we <;> simp only [getWallet, h] <;> repeat constructor

theorem rebinds_connectAccount (c : State) : Rebinds false (connectAccount c) := by
  unfold connectAccount
  cases hw : c.ethWallet with
  | none => exact .emit .done
  | some w =>
    refine rebinds_awaitOk ?_
    intro r
    cases r <;> try exact .throw _
    rename_i v
    simp only [handleAccount, getATMContract, hw]
    split <;> repeat constructor

theorem rebinds_getBalance (c : State) : Rebinds false (getBalance c) := by
  unfold getBalance
  cases c.atm with
  | none => exact .done
  | some atm =>
    refine rebinds_awaitOk ?_
    intro r
    cases r <;> first | exact .throw _ | exact .emit .done

theorem rebinds_getDeposits (c : State) : Rebinds false (getDeposits c) := by
  unfold getDeposits
  cases c.atm with
  | none => exact .done
  | some atm =>
    refine rebinds_awaitOk ?_
    intro r
    cases r <;> first | exact .throw _ | exact .emit .done

theorem rebinds_getWithdrawals (c : State) : Rebinds false (getWithdrawals c) := by
  unfold getWithdrawals
  cases c.atm with
  | none => exact .done
  | some atm =>
    refine rebinds_awaitOk ?_
    intro r
    cases r <;> first | exact .throw _ | exact .emit .done

theorem rebinds_fetchRecords (c : State) : Rebinds false (fetchRecords c) := by
  unfold fetchRecords
  cases c.atm with
  | none => exact .done
  | some atm =>
    exact .emit (rebinds_seq (rebinds_getDeposits c)
      (rebinds_seq (rebinds_getWithdrawals c) (.emit .done)))

theorem rebinds_refresh (c : State) :
    Rebinds false (.spawn (getBalance c) (.spawn (fetchRecords c) (triggerConfetti .done))) :=
  .spawn (rebinds_getBalance c) (.spawn (rebinds_fetchRecords c) (.emit .done))

theorem rebinds_deposit (c : State) : Rebinds false (deposit c) := by
  unfold deposit
  cases c.atm with
  | none => exact .done
  | some atm =>
    cases c.loading with
    | true => exact .done
    | false =>
      refine .emit (rebinds_seq (rebinds_tryCatch ?_ ?_) (.emit .done))
      · rw [parseEther_one]
        exact rebinds_awaitOk fun _ => rebinds_awaitOk fun _ => rebinds_refresh c
      · intro e
        exact .emit (.emit .done)

theorem rebinds_withdraw (c : State) : Rebinds false (withdraw c) := by
  unfold withdraw
  cases c.atm with
  | none => exact .done
  | some atm =>
    cases c.loading with
    | true => exact .done
    | false =>
      refine .emit (rebinds_seq (rebinds_tryCatch ?_ ?_) (.emit .done))
      · rw [parseEther_one]
        exact rebinds_awaitOk fun _ => rebinds_awaitOk fun _ => rebinds_refresh c
      · intro e
        exact .emit (.emit .done)

theorem rebinds_onAtmChange (c : State) : Rebinds false (onAtmChange c) := by
  unfold onAtmChange
  cases c.atm with
  | none => exact .done
  | some atm => exact .spawn (rebinds_fetchRecords c) .done

theorem rebinds_initUser (c : State) : Rebinds false (initUser c).1 := by
  unfold initUser
  cases c.ethWallet with
  | none => exact .done
  | some w =>
    cases c.account.truthy with
    | false => exact .done
    | true =>
      cases hb : c.balance with
      | none => simpa using .spawn (rebinds_getBalance c) .done
      | some b => simpa using .done

theorem reachable_rebinds {cfg : Config} (h : Reachable cfg) :
    PendingRebind cfg ∧ AccountBound cfg.state := by
  induction h with
  | start =>
    refine ⟨?_, ?_⟩
    · intro t ht
      simp [Config.idle] at ht
    · intro ht
      simp [Config.idle, initialState, JSVal.truthy] at ht
  | mount we _ ih =>
    exact runSync_rebinds (rebinds_getWallet_unset we initialState rfl) _ ih.1 (fun _ => ih.2)
  | connectAccount c _ ih =>
    exact runSync_rebinds (rebinds_connectAccount c) _ ih.1 (fun _ => ih.2)
  | deposit c _ ih => exact runSync_rebinds (rebinds_deposit c) _ ih.1 (fun _ => ih.2)
  | withdraw c _ ih => exact runSync_rebinds (rebinds_withdraw c) _ ih.1 (fun _ => ih.2)
  | onAtmChange c _ ih => exact runSync_rebinds (rebinds_onAtmChange c) _ ih.1 (fun _ => ih.2)
  | render c _ ih => exact runSync_rebinds (rebinds_initUser c) _ ih.1 (fun _ => ih.2)
  | answer i r _ ih => exact deliver_rebinds i r _ ih.1 ih.2

/-- C6: an operation that changes `account` rebinds `atm`.  Whenever
`connectAccount`, run from any state with any answer to its request, leaves
`account` different from what it was, the state had a provider `w`, `setATM`
has been done and `atm` is bound to the fixed contract address with signer
`w`.  `getWallet` is run by the mount effect alone (lines 201-203), with the
snapshot of the first render, and run so, from any configuration and whatever
`window.ethereum` is, it leaves `account` as it was and suspends no call: it
never changes `account`.  Hence in every reachable configuration a truthy
`account` comes with a bound `atm`. -/
theorem account_change_rebinds_contract :
    (∀ (s : State) (r : Reply),
      (deliver 0 r (invoke connectAccount (.idle s))).state.account ≠ s.account →
      ∃ w, s.ethWallet = some w ∧
        (deliver 0 r (invoke connectAccount (.idle s))).state.atm
          = some { address := contractAddress, signer := w } ∧
        Event.setATM { address := contractAddress, signer := w }
          ∈ (deliver 0 r (invoke connectAccount (.idle s))).trace) ∧
    (∀ (windowEthereum : Option Wallet) (cfg : Config),
      (runSync (getWallet windowEthereum initialState) cfg).state.account = cfg.state.account ∧
      (runSync (getWallet windowEthereum initialState) cfg).pending = cfg.pending) ∧
    (∀ cfg : Config, Reachable cfg →
      cfg.state.account.truthy = true → cfg.state.atm.isSome = true) := by
  refine ⟨?_, ?_, ?_⟩
  · intro s r hne
    cases hw : s.ethWallet with
    | none =>
      exfalso
      apply hne
      simp [invoke, connectAccount, hw, Config.idle, runSync, deliver, applyEvent]
    | some w =>
      refine ⟨w, rfl, ?_⟩
      cases r with
      | accounts a =>
        cases ha : a.truthy with
        | true =>
          simp [invoke, connectAccount, handleAccount, getATMContract, hw, ha, Config.idle,
            runSync, awaitOk, deliver, Call.accepts, applyEvent]
        | false =>
          exfalso
          apply hne
          simp [invoke, connectAccount, handleAccount, getATMContract, hw, ha, Config.idle,
            runSync, awaitOk, deliver, Call.accepts, applyEvent]
      | error e =>
        exfalso
        apply hne
        simp [invoke, connectAccount, hw, Config.idle, runSync, awaitOk, deliver, Call.accepts]
      | _ =>
        exfalso
        apply hne
        simp [invoke, connectAccount, hw, Config.idle, runSync, awaitOk, deliver, Call.accepts]
  · intro we cfg
    cases we <;> simp [getWallet, initialState, runSync, applyEvent]
  · intro cfg hreach
    exact (reachable_rebinds hreach).2

theorem account_change_rebinds_contract_witness :
    ((deliver 0 (.accounts (.arr ["0xabc"]))
        (invoke connectAccount (.idle walletOnlyState))).state.account
      ≠ walletOnlyState.account ∧
      ∃ w, walletOnlyState.ethWallet = some w ∧
        (deliver 0 (.accounts (.arr ["0xabc"]))
          (invoke connectAccount (.idle walletOnlyState))).state.atm
          = some { address := contractAddress, signer := w } ∧
        Event.setATM { address := contractAddress, signer := w }
          ∈ (deliver 0 (.accounts (.arr ["0xabc"]))
              (invoke connectAccount (.idle walletOnlyState))).trace) ∧
    (Reachable connectedConfig ∧ connectedConfig.state.account.truthy = true ∧
      connectedConfig.state.atm.isSome = true) :=
  ⟨⟨by decide, account_change_rebinds_contract.1 walletOnlyState _ (by decide)⟩,
    .answer 0 _ (.connectAccount walletOnlyState (.mount (some 7) .start)),
    by decide,
    account_change_rebinds_contract.2.2 connectedConfig
      (.answer 0 _ (.connectAccount walletOnlyState (.mount (some 7) .start))) (by decide)⟩

/-- A remark on the body of `getWallet` (lines 23-26), outside what the page
can do: were it run with a snapshot that holds a provider, it would query
`eth_accounts`, store the answer in `account` and not bind the contract.  The
mount effect, its only caller, runs it with the snapshot of the first render,
which holds no provider, and by `reachable_rebinds` the configuration below is
not reachable. -/
theorem getWallet_body_with_provider_skips_contract :
    (deliver 0 (.accounts (.arr ["0xabc"]))
        (invoke (getWallet (some 7)) (.idle walletOnlyState))).state.account
      ≠ walletOnlyState.account ∧
    (deliver 0 (.accounts (.arr ["0xabc"]))
        (invoke (getWallet (some 7)) (.idle walletOnlyState))).state.account.truthy = true ∧
    (deliver 0 (.accounts (.arr ["0xabc"]))
        (invoke (getWallet (some 7)) (.idle walletOnlyState))).state.atm = none ∧
    (deliver 0 (.accounts (.arr ["0xabc"]))
        (invoke (getWallet (some 7)) (.idle walletOnlyState))).trace
      = [.setEthWallet 7, .call (.request 7 "eth_accounts"),
          .consoleLog "Account connected: " [.arr ["0xabc"]], .setAccount (.arr ["0xabc"])] ∧
    ¬ Reachable (deliver 0 (.accounts (.arr ["0xabc"]))
        (invoke (getWallet (some 7)) (.idle walletOnlyState))) := by
  refine ⟨by decide, by decide, by decide, by decide, ?_⟩
  intro h
  have hb := (reachable_rebinds h).2
  exact absurd (hb (by decide)) (by decide)

end SCMStarter
